import Mathlib

/-!
Verification of the userspace-rcu reclamation core: a shallow embedding of
the HPREF hazard-pointer engine (src/hpref.c, include/urcu/hpref.h), the
per-CPU RCU flavor (src/urcu-percpu.c, include/urcu/static/urcu-percpu.h),
the QSBR flavor (src/urcu-qsbr.c, include/urcu/static/urcu-qsbr.h) and the
signal/mb flavor (include/urcu/static/urcu.h), together with proofs about
the embedded operations.

Machine integers are modelled as `Nat` with explicit `% 2^w` where wraparound
matters; pointers are modelled as `Nat` addresses with `0` playing the role
of NULL.  Busy-wait loops over shared slots are modelled against a snapshot
of the shared state: a scan records the set of slot indices whose snapshot
value triggers the busy-wait loop.
-/

namespace Urcu

/-! ### HPREF constants (include/urcu/hpref.h) -/

def HPREF_NR_PERCPU_SLOTS_BITS : Nat := 6
def HPREF_NR_PERCPU_SLOTS : Nat := 2 ^ HPREF_NR_PERCPU_SLOTS_BITS
/-- Scan skips the first slot (it holds the scan_depth). -/
def HPREF_FIRST_SCAN_SLOT : Nat := 1
/-- The emergency reserve slot is the last slot. -/
def HPREF_EMERGENCY_SLOT : Nat := HPREF_NR_PERCPU_SLOTS - 1
def HPREF_DEPTH_STRIDE_BITS : Nat := 3
def HPREF_DEPTH_STRIDE : Nat := 2 ^ HPREF_DEPTH_STRIDE_BITS
def HPREF_SHRINK_HYSTERESIS : Nat := HPREF_DEPTH_STRIDE

/-- `HPREF_ALIGN(depth, align) = ((depth) + (align - 1)) & (~(align - 1))`.
For a power-of-two `align`, masking off the low bits of `x` is `x - x % align`. -/
def HPREF_ALIGN (depth align : Nat) : Nat :=
  (depth + (align - 1)) - ((depth + (align - 1)) % align)

/-- `sizeof(struct hpref_node)` on the modelled LP64 target:
a `struct urcu_ref` (one `long`) plus one function pointer. -/
def hpref_node_sizeof : Nat := 16

/-! ### HPREF per-CPU slot state

`struct hpref_percpu_slots` is an array of 64 words.  Word 0 is reused as
the per-CPU `scan_depth` (`hpref_get_cpu_slots_scan_depth` casts `&slots[0]`);
words `1 .. 63` are hazard-pointer slots holding a tagged pointer
`(node | period_bit)`, with `0` for NULL. -/

structure HprefCpu where
  slots : List Nat
deriving Repr, DecidableEq

/-- The scan depth stored in `slots[0]`. -/
def cpu_scan_depth (c : HprefCpu) : Nat := c.slots.getD 0 0

/-- Value of slot `i` (0 when out of range, matching zero-initialized memory). -/
def cpu_slot (c : HprefCpu) (i : Nat) : Nat := c.slots.getD i 0

/-- Untagged pointer of a slot value: `(uintptr_t) slot_node & ~1UL`. -/
def slot_untag (v : Nat) : Nat := v - v % 2

/-- Tag (period) bit of a slot value: `(uintptr_t) slot_node & 1`. -/
def slot_tag (v : Nat) : Nat := v % 2

/-! ### hpref_scan_wait (src/hpref.c lines 93-174)

The per-slot body of `hpref_scan_wait` has two modes, selected by
`!addr || length > sizeof(struct hpref_node)`:

* broad mode: load the slot; if it is non-NULL and its tag bit equals
  `wait_period`, busy-wait until the slot value changes (NULL or a
  differing tag both satisfy the wait immediately);
* targeted mode: load the slot; busy-wait while its untagged pointer
  equals `addr`, for any period.

`hpref_scan_wait_blocks` decides whether the busy-wait loop is entered for
a slot whose snapshot value is `v`. -/

def hpref_scan_wait_blocks (addr length wait_period v : Nat) : Bool :=
  if addr = 0 ∨ hpref_node_sizeof < length then
    v ≠ 0 ∧ v % 2 = wait_period
  else
    slot_untag v = addr

/-- Slot indices visited by one CPU scan:
`for (i = HPREF_FIRST_SCAN_SLOT; i < scan_depth; i++)`. -/
def hpref_scan_range (c : HprefCpu) : List Nat :=
  List.range' HPREF_FIRST_SCAN_SLOT (cpu_scan_depth c - HPREF_FIRST_SCAN_SLOT)

/-- The set of slot indices of CPU `c` on which one `hpref_scan_wait` pass
busy-waits, given the scanned snapshot. -/
def hpref_scan_wait_set (addr length wait_period : Nat) (c : HprefCpu) : List Nat :=
  (hpref_scan_range c).filter fun i =>
    hpref_scan_wait_blocks addr length wait_period (cpu_slot c i)

/-- One `hpref_scan_wait` pass over all CPUs: per-CPU wait sets. -/
def hpref_scan_wait_sets (addr length wait_period : Nat) (cpus : List HprefCpu) :
    List (List Nat) :=
  cpus.map (hpref_scan_wait_set addr length wait_period)

/-! ### hpref_synchronize (src/hpref.c lines 189-214)

`hpref_synchronize(addr, length)` takes the sync lock, then:
if `addr && length <= sizeof(struct hpref_node)`, it performs a single
`hpref_scan_wait(addr, length, 0)` call and leaves `hpref_period` alone;
otherwise it computes `wait_period = hpref_period ^ 1`, scans with it,
stores `wait_period` into `hpref_period`, and scans with `wait_period ^ 1`.

The model returns the list of scan passes performed, each recorded as the
`wait_period` argument paired with the per-CPU wait sets, together with the
final `hpref_period`. -/

def hpref_synchronize_model (addr length period : Nat) (cpus : List HprefCpu) :
    List (Nat × List (List Nat)) × Nat :=
  if addr ≠ 0 ∧ length ≤ hpref_node_sizeof then
    ([(0, hpref_scan_wait_sets addr length 0 cpus)], period)
  else
    let wait_period := period ^^^ 1
    ([(wait_period, hpref_scan_wait_sets addr length wait_period cpus),
      (wait_period ^^^ 1, hpref_scan_wait_sets addr length (wait_period ^^^ 1) cpus)],
     wait_period)

/-- Sanity: wait sets on a concrete snapshot. -/
example : hpref_scan_wait_set 10 8 0 ⟨[4, 10, 11, 0, 7]⟩ = [1, 2] := by decide

example : hpref_scan_wait_set 0 0 1 ⟨[4, 10, 11, 0, 7]⟩ = [2] := by decide

lemma mem_hpref_scan_range {c : HprefCpu} {i : Nat} :
    i ∈ hpref_scan_range c ↔ HPREF_FIRST_SCAN_SLOT ≤ i ∧ i < cpu_scan_depth c := by
  unfold hpref_scan_range HPREF_FIRST_SCAN_SLOT
  rw [List.mem_range'_1]
  omega

lemma mem_hpref_scan_wait_set_targeted {addr length : Nat} (h0 : addr ≠ 0)
    (hlen : length ≤ hpref_node_sizeof) {wp : Nat} {c : HprefCpu} {i : Nat} :
    i ∈ hpref_scan_wait_set addr length wp c ↔
      (HPREF_FIRST_SCAN_SLOT ≤ i ∧ i < cpu_scan_depth c ∧
        slot_untag (cpu_slot c i) = addr) := by
  have hb : ¬ (addr = 0 ∨ hpref_node_sizeof < length) := by
    push_neg
    exact ⟨h0, hlen⟩
  simp only [hpref_scan_wait_set, List.mem_filter, mem_hpref_scan_range,
    hpref_scan_wait_blocks, if_neg hb, decide_eq_true_eq]
  tauto

lemma mem_hpref_scan_wait_set_broad {addr length : Nat}
    (h : addr = 0 ∨ hpref_node_sizeof < length) {wp : Nat} {c : HprefCpu} {i : Nat} :
    i ∈ hpref_scan_wait_set addr length wp c ↔
      (HPREF_FIRST_SCAN_SLOT ≤ i ∧ i < cpu_scan_depth c ∧
        cpu_slot c i ≠ 0 ∧ (cpu_slot c i) % 2 = wp) := by
  simp only [hpref_scan_wait_set, List.mem_filter, mem_hpref_scan_range,
    hpref_scan_wait_blocks, if_pos h, decide_eq_true_eq, ne_eq]
  tauto

/-- **C1.** `hpref_synchronize(addr, length)` dispatches by target.
When `addr` is non-NULL and `length <= sizeof(struct hpref_node)` it performs
exactly one targeted scan pass that busy-waits precisely on the slots, within
each CPU's scan_depth, whose untagged pointer equals `addr`, and leaves
`hpref_period` unchanged.  In every other case it performs exactly two scan
passes bracketing one flip of `hpref_period`: with `wait_period = period ^ 1`,
the first pass busy-waits precisely on the slots whose value is non-NULL with
tag bit equal to `wait_period` (NULL or a differing tag both satisfy the
wait), `hpref_period` becomes `wait_period`, and the second pass uses
`wait_period ^ 1`. -/
theorem hpref_synchronize_dispatch (addr length period : Nat) (cpus : List HprefCpu) :
    (addr ≠ 0 ∧ length ≤ hpref_node_sizeof →
      (hpref_synchronize_model addr length period cpus).2 = period ∧
      (hpref_synchronize_model addr length period cpus).1 =
        [(0, hpref_scan_wait_sets addr length 0 cpus)] ∧
      ∀ c ∈ cpus, ∀ i,
        i ∈ hpref_scan_wait_set addr length 0 c ↔
          (HPREF_FIRST_SCAN_SLOT ≤ i ∧ i < cpu_scan_depth c ∧
            slot_untag (cpu_slot c i) = addr)) ∧
    (¬ (addr ≠ 0 ∧ length ≤ hpref_node_sizeof) →
      (hpref_synchronize_model addr length period cpus).2 = period ^^^ 1 ∧
      (hpref_synchronize_model addr length period cpus).1 =
        [(period ^^^ 1, hpref_scan_wait_sets addr length (period ^^^ 1) cpus),
         ((period ^^^ 1) ^^^ 1, hpref_scan_wait_sets addr length ((period ^^^ 1) ^^^ 1) cpus)] ∧
      ∀ wp, ∀ c ∈ cpus, ∀ i,
        i ∈ hpref_scan_wait_set addr length wp c ↔
          (HPREF_FIRST_SCAN_SLOT ≤ i ∧ i < cpu_scan_depth c ∧
            cpu_slot c i ≠ 0 ∧ (cpu_slot c i) % 2 = wp)) := by
  constructor
  · intro h
    refine ⟨?_, ?_, ?_⟩
    · simp [hpref_synchronize_model, h]
    · simp [hpref_synchronize_model, h]
    · intro c _ i
      exact mem_hpref_scan_wait_set_targeted h.1 h.2
  · intro h
    have hb : addr = 0 ∨ hpref_node_sizeof < length := by
      by_cases h0 : addr = 0
      · exact Or.inl h0
      · right
        by_contra hlen
        exact h ⟨h0, by omega⟩
    refine ⟨?_, ?_, ?_⟩
    · simp [hpref_synchronize_model, h]
    · simp [hpref_synchronize_model, h]
    · intro wp c _ i
      exact mem_hpref_scan_wait_set_broad hb

/-- Witness for C1: both branches of `hpref_synchronize_dispatch` exercised at
concrete inputs.  Targeted: `addr = 10`, `length = 8`; broad: `addr = 0`. -/
theorem hpref_synchronize_dispatch_witness :
    ((hpref_synchronize_model 10 8 0 [⟨[4, 10, 11, 0, 7]⟩]).2 = 0 ∧
      (10 ∈ hpref_scan_wait_set 10 8 0 ⟨[4, 10, 11, 0, 7]⟩ ↔
        (HPREF_FIRST_SCAN_SLOT ≤ 10 ∧ 10 < cpu_scan_depth ⟨[4, 10, 11, 0, 7]⟩ ∧
          slot_untag (cpu_slot ⟨[4, 10, 11, 0, 7]⟩ 10) = 10))) ∧
    (hpref_synchronize_model 0 0 0 [⟨[4, 10, 11, 0, 7]⟩]).2 = 0 ^^^ 1 := by
  have h1 := hpref_synchronize_dispatch 10 8 0 [⟨[4, 10, 11, 0, 7]⟩]
  have h2 := hpref_synchronize_dispatch 0 0 0 [⟨[4, 10, 11, 0, 7]⟩]
  have ht := h1.1 (by decide)
  have hbr := h2.2 (by decide)
  exact ⟨⟨ht.1, ht.2.2 _ (by simp) 10⟩, hbr.1⟩

/-! ### The scan-depth raise loop

Both `hpref_hp_get` (include/urcu/hpref.h lines 227-233) and the restore path
of `hpref_scan_wait` (src/hpref.c lines 165-170) run the same compare-and-swap
loop:

    for (;;) {
        old_depth = uatomic_cmpxchg(scan_depth_p, scan_depth, new_depth);
        if (old_depth == scan_depth || old_depth >= new_depth)
            break;
        scan_depth = old_depth;
    }

`RaiseDepth nd e f w` relates the expected value `e` (`scan_depth`) at loop
entry to the value `f` the location holds when the loop breaks; `w` lists the
(replaced value, stored value) pairs of the successful compare-and-swap
stores.  Concurrent updates of the location between iterations are
unconstrained: a failed compare-and-swap observes an arbitrary value `m`. -/

inductive RaiseDepth (nd : Nat) : Nat → Nat → List (Nat × Nat) → Prop
  /-- the cmpxchg observes `e` and stores `nd`; the loop breaks -/
  | store (e : Nat) : RaiseDepth nd e nd [(e, nd)]
  /-- the cmpxchg fails observing `m >= nd`: break without storing -/
  | stop (e m : Nat) : m ≠ e → nd ≤ m → RaiseDepth nd e m []
  /-- the cmpxchg fails observing `m < nd`: retry with `scan_depth = m` -/
  | step (e m f : Nat) (w : List (Nat × Nat)) :
      m ≠ e → m < nd → RaiseDepth nd m f w → RaiseDepth nd e f w

lemma RaiseDepth.nd_le {nd e f : Nat} {w : List (Nat × Nat)}
    (h : RaiseDepth nd e f w) : nd ≤ f := by
  induction h with
  | store e => exact Nat.le_refl nd
  | stop e m hne hge => exact hge
  | step e m f w hne hlt hrec ih => exact ih

lemma RaiseDepth.stores_increase {nd e f : Nat} {w : List (Nat × Nat)}
    (h : RaiseDepth nd e f w) (he : e < nd) : ∀ p ∈ w, p.1 < p.2 := by
  induction h with
  | store e =>
    intro p hp
    rw [List.mem_singleton] at hp
    subst hp
    exact he
  | stop e m hne hge => intro p hp; cases hp
  | step e m f w hne hlt hrec ih => exact ih hlt

/-- The raise loop in the sequential memory model: the location holds `m` and
is updated only by the loop's own stores.  When the first compare-and-swap
fails with `m < nd`, the loop retries with `scan_depth = m` and the second
compare-and-swap (location still `m`) succeeds, storing `nd`. -/
def raise_depth_seq (nd e m : Nat) : Nat :=
  if m = e then nd
  else if nd ≤ m then m
  else nd

lemma raise_depth_seq_ge (nd e m : Nat) : nd ≤ raise_depth_seq nd e m := by
  unfold raise_depth_seq
  split
  · exact Nat.le_refl nd
  · split
    · assumption
    · exact Nat.le_refl nd

/-- The sequential run is one of the runs admitted by `RaiseDepth`. -/
lemma raise_depth_seq_sound (nd e m : Nat) :
    ∃ w, RaiseDepth nd e (raise_depth_seq nd e m) w := by
  unfold raise_depth_seq
  by_cases h1 : m = e
  · rw [if_pos h1]
    exact ⟨_, RaiseDepth.store e⟩
  · rw [if_neg h1]
    by_cases h2 : nd ≤ m
    · rw [if_pos h2]
      exact ⟨_, RaiseDepth.stop e m h1 h2⟩
    · rw [if_neg h2]
      exact ⟨_, RaiseDepth.step e m nd _ h1 (by omega) (RaiseDepth.store m)⟩

lemma hpref_align_stride (d : Nat) :
    d ≤ HPREF_ALIGN d HPREF_DEPTH_STRIDE ∧
    HPREF_ALIGN d HPREF_DEPTH_STRIDE % HPREF_DEPTH_STRIDE = 0 ∧
    HPREF_ALIGN d HPREF_DEPTH_STRIDE < d + HPREF_DEPTH_STRIDE := by
  have h8 : HPREF_DEPTH_STRIDE = 8 := by decide
  unfold HPREF_ALIGN
  rw [h8]
  omega

/-! ### Scan-depth maintenance in hpref_scan_wait (src/hpref.c lines 137-172) -/

/-- `last_used_pos` after iterating `idxs` in order: the last index whose slot
value is non-NULL; 0 when none (the variable's initialization). -/
def last_used_pos (vals : Nat → Nat) (idxs : List Nat) : Nat :=
  idxs.foldl (fun acc i => if vals i ≠ 0 then i else acc) 0

lemma last_used_pos_foldl_lower (vals : Nat → Nat) :
    ∀ (l : List Nat) (a b : Nat), (∀ k ∈ l, b ≤ k) → b ≤ a →
      b ≤ l.foldl (fun acc i => if vals i ≠ 0 then i else acc) a := by
  intro l
  induction l with
  | nil => intro a b _ hba; exact hba
  | cons j t ih =>
    intro a b hk hba
    simp only [List.foldl_cons]
    refine ih _ b (fun k hkt => hk k (List.mem_cons_of_mem j hkt)) ?_
    by_cases hj : vals j ≠ 0
    · rw [if_pos hj]; exact hk j (List.mem_cons_self j t)
    · rw [if_neg hj]; exact hba

lemma last_used_pos_ge (vals : Nat → Nat) :
    ∀ (l : List Nat), l.Pairwise (· ≤ ·) →
      ∀ a i, i ∈ l → vals i ≠ 0 →
        i ≤ l.foldl (fun acc h => if vals h ≠ 0 then h else acc) a := by
  intro l
  induction l with
  | nil => intro _ a i hi; cases hi
  | cons j t ih =>
    intro hp a i hi hvi
    have hp1 : ∀ k ∈ t, j ≤ k := fun k hk => List.rel_of_pairwise_cons hp hk
    have hp2 : t.Pairwise (· ≤ ·) := List.Pairwise.of_cons hp
    simp only [List.foldl_cons]
    rcases List.mem_cons.mp hi with hij | hit
    · subst hij
      rw [if_pos hvi]
      exact last_used_pos_foldl_lower vals t i i hp1 (Nat.le_refl i)
    · exact ih hp2 _ i hit hvi

lemma pairwise_le_range' : ∀ (n s : Nat), (List.range' s n).Pairwise (· ≤ ·) := by
  intro n
  induction n with
  | zero => intro s; simp
  | succ n ih =>
    intro s
    rw [List.range'_succ]
    refine List.Pairwise.cons ?_ (ih (s + 1))
    intro b hb
    have := List.mem_range'_1.mp hb
    omega

/-- Result of the scan-depth maintenance at the end of one per-CPU iteration
of `hpref_scan_wait`: the re-scanned (removed) index range and the final
scan-depth value. -/
structure ScanDepthUpdate where
  removed : List Nat
  final_depth : Nat

/-- Scan-depth maintenance of `hpref_scan_wait` (src/hpref.c lines 137-172) in
the sequential memory model.  `rescan` gives the values observed by the
re-scan of the removed range (these loads are distinct from the first scan's
and may observe concurrent writes).  The `uatomic_xchg` returns the depth
loaded at the top of the scan; the restore compare-and-swap loop is
`raise_depth_seq` with the stale `scan_depth` as expected value while the
location holds the shrunk depth. -/
def hpref_scan_wait_depth_update (c : HprefCpu) (rescan : Nat → Nat) : ScanDepthUpdate :=
  let scan_depth := cpu_scan_depth c
  let lup := last_used_pos (cpu_slot c) (hpref_scan_range c)
  if lup + HPREF_SHRINK_HYSTERESIS < scan_depth then
    let new_depth := HPREF_ALIGN (lup + 1) HPREF_DEPTH_STRIDE
    let old_depth := scan_depth
    let removed := List.range' (new_depth - 1) (old_depth - (new_depth - 1))
    let lup2 := last_used_pos rescan removed
    if new_depth < lup2 + 1 then
      ⟨removed, raise_depth_seq (HPREF_ALIGN (lup2 + 1) HPREF_DEPTH_STRIDE) scan_depth new_depth⟩
    else
      ⟨removed, new_depth⟩
  else
    ⟨[], scan_depth⟩

/-- **C4.** Scan-depth coverage.  (a) Whenever `hpref_hp_get` succeeds at slot
index `s` and the loaded `scan_depth` `e` satisfies `e < s + 1`, the
compare-and-swap raise loop targets `HPREF_ALIGN(s + 1, HPREF_DEPTH_STRIDE)`,
a multiple of the depth stride 8 covering `s`; the loop exits with the
location at least that value, and every store performed by the loop replaces a
value by a strictly larger one (the loop never decreases `scan_depth`).
(b) When `hpref_scan_wait` shrinks `scan_depth`, it re-scans the removed
range, and the final depth covers every slot of that range observed occupied
by the re-scan. -/
theorem scan_depth_coverage :
    (∀ s e f w, e < s + 1 →
      RaiseDepth (HPREF_ALIGN (s + 1) HPREF_DEPTH_STRIDE) e f w →
        HPREF_ALIGN (s + 1) HPREF_DEPTH_STRIDE % HPREF_DEPTH_STRIDE = 0 ∧
        s + 1 ≤ HPREF_ALIGN (s + 1) HPREF_DEPTH_STRIDE ∧
        HPREF_ALIGN (s + 1) HPREF_DEPTH_STRIDE ≤ f ∧
        (∀ p ∈ w, p.1 < p.2)) ∧
    (∀ c rescan i, i ∈ (hpref_scan_wait_depth_update c rescan).removed →
      rescan i ≠ 0 → i < (hpref_scan_wait_depth_update c rescan).final_depth) := by
  constructor
  · intro s e f w he h
    obtain ⟨hle, hmod, _⟩ := hpref_align_stride (s + 1)
    exact ⟨hmod, hle, h.nd_le, h.stores_increase (by omega)⟩
  · intro c rescan i hmem hocc
    unfold hpref_scan_wait_depth_update at hmem ⊢
    by_cases hshrink :
        last_used_pos (cpu_slot c) (hpref_scan_range c) + HPREF_SHRINK_HYSTERESIS <
          cpu_scan_depth c
    · simp only [if_pos hshrink] at hmem ⊢
      set lup := last_used_pos (cpu_slot c) (hpref_scan_range c) with hlup
      set nd := HPREF_ALIGN (lup + 1) HPREF_DEPTH_STRIDE with hnd
      set removed := List.range' (nd - 1) (cpu_scan_depth c - (nd - 1)) with hrem
      set lup2 := last_used_pos rescan removed with hlup2
      have hmem2 : i ∈ removed := by
        rcases Classical.em (nd < lup2 + 1) with h | h
        · simpa [if_pos h] using hmem
        · simpa [if_neg h] using hmem
      have hile : i ≤ lup2 := by
        rw [hlup2]
        exact last_used_pos_ge rescan removed (pairwise_le_range' _ _) 0 i hmem2 hocc
      by_cases hrestore : nd < lup2 + 1
      · simp only [if_pos hrestore]
        have h1 := raise_depth_seq_ge (HPREF_ALIGN (lup2 + 1) HPREF_DEPTH_STRIDE)
          (cpu_scan_depth c) nd
        have h2 := (hpref_align_stride (lup2 + 1)).1
        omega
      · simp only [if_neg hrestore]
        omega
    · simp only [if_neg hshrink] at hmem
      cases hmem

/-- Concrete CPU snapshot used by the C4 witness: scan_depth 24, slot 2
occupied, so the scan shrinks the depth to 8 and re-scans `[7, 23]`. -/
def scanDepthWitnessCpu : HprefCpu := ⟨[24, 0, 5]⟩

/-- Re-scan observations used by the C4 witness: slot 9 became occupied. -/
def scanDepthWitnessRescan : Nat → Nat := fun i => if i = 9 then 4 else 0

/-- Witness for C4: part (a) at `s = 1`, `e = 0` with the one-store run, and
part (b) at the concrete shrink where the re-scan finds slot 9 occupied. -/
theorem scan_depth_coverage_witness :
    (0 < 1 + 1 ∧ 1 + 1 ≤ HPREF_ALIGN (1 + 1) HPREF_DEPTH_STRIDE) ∧
    (9 ∈ (hpref_scan_wait_depth_update scanDepthWitnessCpu scanDepthWitnessRescan).removed ∧
      scanDepthWitnessRescan 9 ≠ 0 ∧
      9 < (hpref_scan_wait_depth_update scanDepthWitnessCpu scanDepthWitnessRescan).final_depth) := by
  refine ⟨⟨by decide, ?_⟩, ⟨by decide, by decide, ?_⟩⟩
  · exact ((scan_depth_coverage.1 1 0 _ _ (by decide) (RaiseDepth.store 0))).2.1
  · exact scan_depth_coverage.2 scanDepthWitnessCpu scanDepthWitnessRescan 9
      (by decide) (by decide)

/-! ### HPREF nodes, reference counts and reader contexts (include/urcu/hpref.h) -/

inductive hpref_type
  | HPREF_TYPE_HP
  | HPREF_TYPE_REF
deriving Repr, DecidableEq

/-- `struct hpref_ctx`: the claimed slot (index on the reader's CPU, `none`
for NULL), the protected node address, and the context type. -/
structure hpref_ctx where
  slot : Option Nat
  hp : Nat
  type : hpref_type
deriving Repr, DecidableEq

/-- Node heap: reference count per node address, plus the list of addresses
whose release callback has run. -/
structure HprefHeap where
  refs : Nat → Nat
  released : List Nat

/-- Modelled from the spec: `urcu/ref.h` (`urcu_ref_get`) is not under src/.
Spec 4.10 describes `copy` as "refcount +1" and spec 4.7 promotion as
"increment refcount". -/
def urcu_ref_get (h : HprefHeap) (a : Nat) : HprefHeap :=
  { h with refs := fun x => if x = a then h.refs a + 1 else h.refs x }

/-- Modelled from the spec: `urcu/ref.h` (`urcu_ref_put`) is not under src/.
Spec 4.7 (release by reader): "For type=REF, decrement refcount; on zero, run
the release callback". -/
def urcu_ref_put (h : HprefHeap) (a : Nat) : HprefHeap :=
  { refs := fun x => if x = a then h.refs a - 1 else h.refs x,
    released := if h.refs a - 1 = 0 then a :: h.released else h.released }

/-- Store `v` through a context's slot pointer (`ctx->slot->node = v`).
Storing through a NULL `ctx->slot` would be a crash in C; the model leaves
the CPU state unchanged in that case. -/
def cpu_slot_store (c : HprefCpu) (s : Option Nat) (v : Nat) : HprefCpu :=
  match s with
  | some i => ⟨c.slots.set i v⟩
  | none => c

/-- `hpref_promote_hp_to_ref` (include/urcu/hpref.h lines 149-158): return
immediately on a REF context; otherwise increment the node's refcount,
release-store NULL into the slot, clear `ctx->slot` and switch the type. -/
def hpref_promote_hp_to_ref (ctx : hpref_ctx) (c : HprefCpu) (h : HprefHeap) :
    hpref_ctx × HprefCpu × HprefHeap :=
  if ctx.type = hpref_type.HPREF_TYPE_REF then (ctx, c, h)
  else
    ({ slot := none, hp := ctx.hp, type := hpref_type.HPREF_TYPE_REF },
      cpu_slot_store c ctx.slot 0, urcu_ref_get h ctx.hp)

/-- `hpref_node_put` (src/hpref.c lines 216-221). -/
def hpref_node_put (h : HprefHeap) (node : Nat) : HprefHeap :=
  if node = 0 then h else urcu_ref_put h node

/-- `hpref_put` (include/urcu/hpref.h lines 264-274). -/
def hpref_put (ctx : hpref_ctx) (c : HprefCpu) (h : HprefHeap) :
    hpref_ctx × HprefCpu × HprefHeap :=
  if ctx.type = hpref_type.HPREF_TYPE_REF then
    ({ ctx with hp := 0 }, c, hpref_node_put h ctx.hp)
  else
    ({ ctx with hp := 0 }, cpu_slot_store c ctx.slot 0, h)

/-- `hpref_synchronize_put` (src/hpref.c lines 228-234): NULL check, then
`hpref_synchronize(node, sizeof(struct hpref_node))` followed by
`hpref_node_put(node)`.  Returns the scan passes performed, the final
`hpref_period` and the final heap. -/
def hpref_synchronize_put_model (node period : Nat) (cpus : List HprefCpu)
    (h : HprefHeap) : List (Nat × List (List Nat)) × Nat × HprefHeap :=
  if node = 0 then ([], period, h)
  else
    let s := hpref_synchronize_model node hpref_node_sizeof period cpus
    (s.1, s.2, hpref_node_put h node)

/-- **C9.** `hpref_node_put(NULL)` and `hpref_synchronize_put(NULL)` are total
no-ops: with a NULL node they return immediately, leaving every refcount
unchanged, invoking no release callback, and performing no scan pass. -/
theorem hpref_put_null_noop (h : HprefHeap) (period : Nat) (cpus : List HprefCpu) :
    hpref_node_put h 0 = h ∧
    hpref_synchronize_put_model 0 period cpus h = ([], period, h) :=
  ⟨rfl, rfl⟩

/-- **C8.** `hpref_promote_hp_to_ref` promotes an HP context (refcount +1,
NULL stored through the slot, `ctx.slot` cleared, type switched to REF) and
is the identity on REF contexts, hence idempotent: a second call on the
result (or on any REF context) changes neither the context, the slots, nor
the heap. -/
theorem hpref_promote_hp_to_ref_idempotent (ctx : hpref_ctx) (c : HprefCpu)
    (h : HprefHeap) :
    (ctx.type = hpref_type.HPREF_TYPE_HP →
      (hpref_promote_hp_to_ref ctx c h).1.type = hpref_type.HPREF_TYPE_REF ∧
      (hpref_promote_hp_to_ref ctx c h).1.hp = ctx.hp ∧
      (hpref_promote_hp_to_ref ctx c h).1.slot = none ∧
      (hpref_promote_hp_to_ref ctx c h).2.2.refs ctx.hp = h.refs ctx.hp + 1 ∧
      (hpref_promote_hp_to_ref ctx c h).2.1 = cpu_slot_store c ctx.slot 0) ∧
    (ctx.type = hpref_type.HPREF_TYPE_REF →
      hpref_promote_hp_to_ref ctx c h = (ctx, c, h)) ∧
    hpref_promote_hp_to_ref (hpref_promote_hp_to_ref ctx c h).1
        (hpref_promote_hp_to_ref ctx c h).2.1 (hpref_promote_hp_to_ref ctx c h).2.2 =
      hpref_promote_hp_to_ref ctx c h := by
  obtain ⟨sl, hp, ty⟩ := ctx
  cases ty with
  | HPREF_TYPE_HP =>
    refine ⟨fun _ => ⟨rfl, rfl, rfl, ?_, rfl⟩, ⟨fun hc => (nomatch hc), rfl⟩⟩
    show (urcu_ref_get h hp).refs hp = h.refs hp + 1
    unfold urcu_ref_get
    simp
  | HPREF_TYPE_REF =>
    exact ⟨fun hc => (nomatch hc), fun _ => rfl, rfl⟩

/-- Concrete HP context used by the C8 witness. -/
def promoteWitnessCtx : hpref_ctx := ⟨some 3, 5, hpref_type.HPREF_TYPE_HP⟩

/-- Concrete heap used by the C8 witness: node 5 has refcount 1. -/
def promoteWitnessHeap : HprefHeap := ⟨fun a => if a = 5 then 1 else 0, []⟩

/-- Witness for C8 at a concrete HP context: promotion yields a REF context
with the refcount bumped, and promotion is idempotent there. -/
theorem hpref_promote_hp_to_ref_idempotent_witness :
    (hpref_promote_hp_to_ref promoteWitnessCtx ⟨[8, 0, 0, 11]⟩ promoteWitnessHeap).1.type =
        hpref_type.HPREF_TYPE_REF ∧
    (hpref_promote_hp_to_ref promoteWitnessCtx ⟨[8, 0, 0, 11]⟩ promoteWitnessHeap).2.2.refs 5 =
        promoteWitnessHeap.refs 5 + 1 ∧
    hpref_promote_hp_to_ref
        (hpref_promote_hp_to_ref promoteWitnessCtx ⟨[8, 0, 0, 11]⟩ promoteWitnessHeap).1
        (hpref_promote_hp_to_ref promoteWitnessCtx ⟨[8, 0, 0, 11]⟩ promoteWitnessHeap).2.1
        (hpref_promote_hp_to_ref promoteWitnessCtx ⟨[8, 0, 0, 11]⟩ promoteWitnessHeap).2.2 =
      hpref_promote_hp_to_ref promoteWitnessCtx ⟨[8, 0, 0, 11]⟩ promoteWitnessHeap := by
  have h := hpref_promote_hp_to_ref_idempotent promoteWitnessCtx ⟨[8, 0, 0, 11]⟩
    promoteWitnessHeap
  have hhp := h.1 rfl
  exact ⟨hhp.1, hhp.2.2.2.1, h.2.2⟩

/-! ### hpref_hp_get (include/urcu/hpref.h lines 172-259) -/

/-- The slot-claim loop of `hpref_hp_get` (lines 186-215) in the sequential
model, where an rseq attempt on slot `slot_nr` succeeds exactly when the slot
is NULL.  After every failed attempt the loop body ends in `goto retry`; the
`retry:` label precedes the `for` statement, so taking the goto re-executes
the loop initialization `slot_nr = HPREF_FIRST_SCAN_SLOT`.  The computed
advance of `slot_nr` (the `/* inc in loop. */` branch) is discarded by the
jump. -/
def hpref_hp_get_find_slot (c : HprefCpu) : Nat → Nat → Option Nat
  | 0, _ => none
  | fuel + 1, slot_nr =>
    if slot_nr < HPREF_NR_PERCPU_SLOTS then
      if cpu_slot c slot_nr = 0 then some slot_nr
      else
        let _next := if slot_nr = HPREF_EMERGENCY_SLOT then slot_nr else slot_nr + 1
        hpref_hp_get_find_slot c fuel HPREF_FIRST_SCAN_SLOT
    else none

/-- Sequential model of `hpref_hp_get`: `pcell` is the contents of `*node_p`
(unchanged during the call in the sequential model, so the re-load check
`node != node2` never retries).  On success the claimed slot holds
`node | period`, the scan depth is raised when it does not cover the slot
(`raise_depth_seq` with the location equal to the expected value), and a
claim of the emergency slot is immediately promoted to a reference.
Returns `none` when the slot-claim loop does not terminate within `fuel`
attempts. -/
def hpref_hp_get_model (fuel : Nat) (pcell period : Nat) (c : HprefCpu)
    (h : HprefHeap) : Option (Nat × Option hpref_ctx × HprefCpu × HprefHeap) :=
  if pcell = 0 then some (0, none, c, h)
  else
    match hpref_hp_get_find_slot c fuel HPREF_FIRST_SCAN_SLOT with
    | none => none
    | some slot_nr =>
      let c1 : HprefCpu := ⟨c.slots.set slot_nr (pcell ||| period)⟩
      let scan_depth := cpu_scan_depth c1
      let c2 : HprefCpu :=
        if scan_depth < slot_nr + 1 then
          ⟨c1.slots.set 0
            (raise_depth_seq (HPREF_ALIGN (slot_nr + 1) HPREF_DEPTH_STRIDE)
              scan_depth scan_depth)⟩
        else c1
      let ctx0 : hpref_ctx := ⟨some slot_nr, pcell, hpref_type.HPREF_TYPE_HP⟩
      if slot_nr = HPREF_EMERGENCY_SLOT then
        let r := hpref_promote_hp_to_ref ctx0 c2 h
        some (1, some r.1, r.2.1, r.2.2)
      else
        some (1, some ctx0, c2, h)

lemma hpref_hp_get_find_slot_stuck (c : HprefCpu)
    (hocc : cpu_slot c HPREF_FIRST_SCAN_SLOT ≠ 0) :
    ∀ fuel, hpref_hp_get_find_slot c fuel HPREF_FIRST_SCAN_SLOT = none := by
  intro fuel
  induction fuel with
  | zero => rfl
  | succ n ih =>
    rw [hpref_hp_get_find_slot]
    rw [if_pos (by decide : HPREF_FIRST_SCAN_SLOT < HPREF_NR_PERCPU_SLOTS)]
    rw [if_neg hocc]
    exact ih

/-- CPU snapshot for C3's failing input: scan_depth 0, all non-emergency
scannable slots (1 .. 62) occupied, the emergency slot 63 free. -/
def hpGetStuckCpu : HprefCpu := ⟨0 :: (List.replicate 62 2 ++ [0])⟩

/-- **C3 (code bug).** On a CPU where every non-emergency scannable slot is
occupied and only the emergency slot is free, `hpref_hp_get` never reaches
the emergency slot: the unconditional `goto retry` at the end of the claim
loop re-runs the `for` initialization, resetting `slot_nr` to
`HPREF_FIRST_SCAN_SLOT`, so the walk retries slot 1 forever (for every fuel
bound) instead of advancing to slot 63 and returning a REF context as the
claim and the code's own comments describe. -/
theorem hpref_hp_get_emergency_unreachable :
    ((List.range' HPREF_FIRST_SCAN_SLOT (HPREF_EMERGENCY_SLOT - HPREF_FIRST_SCAN_SLOT)).all
        (fun i => cpu_slot hpGetStuckCpu i != 0) = true) ∧
    cpu_slot hpGetStuckCpu HPREF_EMERGENCY_SLOT = 0 ∧
    ∀ fuel h, hpref_hp_get_model fuel 100 0 hpGetStuckCpu h = none := by
  refine ⟨by decide, by decide, ?_⟩
  intro fuel h
  rw [hpref_hp_get_model]
  rw [if_neg (by decide : ¬ (100 = 0))]
  rw [hpref_hp_get_find_slot_stuck hpGetStuckCpu (by decide) fuel]

/-! ### Per-CPU RCU flavor: counters and the drain loop
(src/urcu-percpu.c, include/urcu/static/urcu-percpu.h) -/

def UINTPTR_BITS : Nat := 64
def UINTPTR_MOD : Nat := 2 ^ UINTPTR_BITS
/-- `RCU_GP_CTR_PHASE = (1UL << 0)` (include/urcu/static/urcu-percpu.h line 83). -/
def RCU_GP_CTR_PHASE_percpu : Nat := 1

/-- Per-CPU, per-phase event counters.  The fields hold the true (unbounded)
event counts; the stored `uintptr_t` words are read modulo `2^64`.  The
`rseq_lock`/`rseq_unlock` members are the ones read by `wait_for_cpus`
(src/urcu-percpu.c lines 221, 234); the header draft of
`struct rcu_percpu_count` declares only `lock`/`unlock`. -/
structure rcu_percpu_count where
  lock : Nat
  unlock : Nat
  rseq_lock : Nat
  rseq_unlock : Nat
deriving Repr, DecidableEq

/-- `struct rcu_percpu`: one counter pair per phase
(`RCU_PERCPU_ARRAY_COUNT = 2`). -/
structure rcu_percpu where
  count0 : rcu_percpu_count
  count1 : rcu_percpu_count
deriving Repr, DecidableEq

def rcu_percpu.count (p : rcu_percpu) (i : Nat) : rcu_percpu_count :=
  if i = 0 then p.count0 else p.count1

/-- `prev_period = 1 - !!(rcu_gp.ctr & RCU_GP_CTR_PHASE)`
(src/urcu-percpu.c line 200). -/
def prev_period (gpctr : Nat) : Nat :=
  1 - (if gpctr &&& RCU_GP_CTR_PHASE_percpu ≠ 0 then 1 else 0)

/-- `uintptr_t` subtraction, the code's `sum -= CMM_LOAD_SHARED(...)`. -/
def usub (s x : Nat) : Nat := (s + (UINTPTR_MOD - x % UINTPTR_MOD)) % UINTPTR_MOD

/-- `uintptr_t` addition, the code's `sum += CMM_LOAD_SHARED(...)`. -/
def uadd (s x : Nat) : Nat := (s + x % UINTPTR_MOD) % UINTPTR_MOD

/-- The drain sum of `wait_for_cpus` (src/urcu-percpu.c lines 207-236):
subtract every CPU's `rseq_unlock` and `unlock`, then add every CPU's
`rseq_lock` and `lock`, in `uintptr_t` arithmetic. -/
def wait_for_cpus_sum (counts : List rcu_percpu_count) : Nat :=
  let s := counts.foldl (fun s p => usub (usub s p.rseq_unlock) p.unlock) 0
  counts.foldl (fun s p => uadd (uadd s p.rseq_lock) p.lock) s

/-- Total true read-lock events of a snapshot. -/
def lock_total (counts : List rcu_percpu_count) : Nat :=
  (counts.map (fun p => p.lock + p.rseq_lock)).sum

/-- Total true read-unlock events of a snapshot. -/
def unlock_total (counts : List rcu_percpu_count) : Nat :=
  (counts.map (fun p => p.unlock + p.rseq_unlock)).sum

/-- One drain pass reads `count[prev_period]` of every possible CPU. -/
def wait_for_cpus_counts (gpctr : Nat) (cpus : List rcu_percpu) :
    List rcu_percpu_count :=
  cpus.map (fun p => p.count (prev_period gpctr))

/-- The drain loop of `wait_for_cpus` over successive snapshots of the
per-CPU state: `if (!sum) break;` — the pass ends at the first snapshot whose
sum is zero, `none` when no snapshot of the modelled schedule has a zero sum
(the writer keeps waiting). -/
def wait_for_cpus_loop (gpctr : Nat) : List (List rcu_percpu) → Option Nat
  | [] => none
  | snap :: rest =>
    if wait_for_cpus_sum (wait_for_cpus_counts gpctr snap) = 0 then some 0
    else (wait_for_cpus_loop gpctr rest).map (· + 1)

lemma UINTPTR_MOD_pos : 0 < UINTPTR_MOD := Nat.pos_pow_of_pos _ (by decide)

lemma modeq_mod_self (a : Int) :
    a % (UINTPTR_MOD : Int) ≡ a [ZMOD (UINTPTR_MOD : Int)] :=
  Int.emod_emod_of_dvd a dvd_rfl

lemma mod_self_zero : (UINTPTR_MOD : Int) ≡ 0 [ZMOD (UINTPTR_MOD : Int)] := by
  unfold Int.ModEq
  simp

lemma usub_modeq (s x : Nat) :
    ((usub s x : Nat) : Int) ≡ (s : Int) - (x : Int) [ZMOD (UINTPTR_MOD : Int)] := by
  have hle : x % UINTPTR_MOD ≤ UINTPTR_MOD :=
    le_of_lt (Nat.mod_lt _ UINTPTR_MOD_pos)
  unfold usub
  push_cast [Nat.cast_sub hle]
  calc ((s : Int) + ((UINTPTR_MOD : Int) - (x : Int) % (UINTPTR_MOD : Int))) %
        (UINTPTR_MOD : Int)
      ≡ (s : Int) + ((UINTPTR_MOD : Int) - (x : Int) % (UINTPTR_MOD : Int))
        [ZMOD (UINTPTR_MOD : Int)] := modeq_mod_self _
    _ ≡ (s : Int) + (0 - (x : Int)) [ZMOD (UINTPTR_MOD : Int)] :=
        Int.ModEq.add_left _ (Int.ModEq.sub mod_self_zero (modeq_mod_self _))
    _ = (s : Int) - (x : Int) := by ring

lemma uadd_modeq (s x : Nat) :
    ((uadd s x : Nat) : Int) ≡ (s : Int) + (x : Int) [ZMOD (UINTPTR_MOD : Int)] := by
  unfold uadd
  push_cast
  calc ((s : Int) + (x : Int) % (UINTPTR_MOD : Int)) % (UINTPTR_MOD : Int)
      ≡ (s : Int) + (x : Int) % (UINTPTR_MOD : Int) [ZMOD (UINTPTR_MOD : Int)] :=
        modeq_mod_self _
    _ ≡ (s : Int) + (x : Int) [ZMOD (UINTPTR_MOD : Int)] :=
        Int.ModEq.add_left _ (modeq_mod_self _)

lemma foldl_usub_modeq (counts : List rcu_percpu_count) :
    ∀ init : Nat,
      ((counts.foldl (fun s p => usub (usub s p.rseq_unlock) p.unlock) init : Nat) : Int) ≡
        (init : Int) - (unlock_total counts : Int) [ZMOD (UINTPTR_MOD : Int)] := by
  induction counts with
  | nil =>
    intro init
    simp only [List.foldl_nil, unlock_total, List.map_nil, List.sum_nil, Nat.cast_zero,
      sub_zero]
    exact Int.ModEq.refl _
  | cons p t ih =>
    intro init
    have hcons : unlock_total (p :: t) = (p.unlock + p.rseq_unlock) + unlock_total t := by
      simp [unlock_total]
    have h2 : ((usub (usub init p.rseq_unlock) p.unlock : Nat) : Int) ≡
        (init : Int) - (p.rseq_unlock : Int) - (p.unlock : Int)
        [ZMOD (UINTPTR_MOD : Int)] :=
      (usub_modeq _ _).trans (Int.ModEq.sub_right _ (usub_modeq _ _))
    have h3 := (ih (usub (usub init p.rseq_unlock) p.unlock)).trans
      (Int.ModEq.sub_right _ h2)
    rw [List.foldl_cons, hcons]
    refine h3.trans ?_
    have : ((init : Int) - (p.rseq_unlock : Int) - (p.unlock : Int)) -
        (unlock_total t : Int) =
        (init : Int) - (((p.unlock + p.rseq_unlock : Nat) : Int) +
          (unlock_total t : Int)) := by
      push_cast
      ring
    rw [this]
    push_cast
    exact Int.ModEq.refl _

lemma foldl_uadd_modeq (counts : List rcu_percpu_count) :
    ∀ init : Nat,
      ((counts.foldl (fun s p => uadd (uadd s p.rseq_lock) p.lock) init : Nat) : Int) ≡
        (init : Int) + (lock_total counts : Int) [ZMOD (UINTPTR_MOD : Int)] := by
  induction counts with
  | nil =>
    intro init
    simp only [List.foldl_nil, lock_total, List.map_nil, List.sum_nil, Nat.cast_zero,
      add_zero]
    exact Int.ModEq.refl _
  | cons p t ih =>
    intro init
    have hcons : lock_total (p :: t) = (p.lock + p.rseq_lock) + lock_total t := by
      simp [lock_total]
    have h2 : ((uadd (uadd init p.rseq_lock) p.lock : Nat) : Int) ≡
        (init : Int) + (p.rseq_lock : Int) + (p.lock : Int)
        [ZMOD (UINTPTR_MOD : Int)] :=
      (uadd_modeq _ _).trans (Int.ModEq.add_right _ (uadd_modeq _ _))
    have h3 := (ih (uadd (uadd init p.rseq_lock) p.lock)).trans
      (Int.ModEq.add_right _ h2)
    rw [List.foldl_cons, hcons]
    refine h3.trans ?_
    have : ((init : Int) + (p.rseq_lock : Int) + (p.lock : Int)) +
        (lock_total t : Int) =
        (init : Int) + (((p.lock + p.rseq_lock : Nat) : Int) +
          (lock_total t : Int)) := by
      push_cast
      ring
    rw [this]
    push_cast
    exact Int.ModEq.refl _

lemma wait_for_cpus_sum_modeq (counts : List rcu_percpu_count) :
    ((wait_for_cpus_sum counts : Nat) : Int) ≡
      (lock_total counts : Int) - (unlock_total counts : Int)
      [ZMOD (UINTPTR_MOD : Int)] := by
  unfold wait_for_cpus_sum
  refine (foldl_uadd_modeq counts _).trans ?_
  refine (Int.ModEq.add_right _ (foldl_usub_modeq counts 0)).trans ?_
  have : (((0 : Nat) : Int) - (unlock_total counts : Int)) + (lock_total counts : Int) =
      (lock_total counts : Int) - (unlock_total counts : Int) := by
    push_cast
    ring
  rw [this]

lemma foldl_lt_mod {α : Type} (f : Nat → α → Nat)
    (hf : ∀ s a, f s a < UINTPTR_MOD) :
    ∀ (l : List α) (init : Nat), init < UINTPTR_MOD → l.foldl f init < UINTPTR_MOD := by
  intro l
  induction l with
  | nil => intro init h; exact h
  | cons a t ih => intro init _; exact ih (f init a) (hf init a)

lemma wait_for_cpus_sum_lt (counts : List rcu_percpu_count) :
    wait_for_cpus_sum counts < UINTPTR_MOD := by
  unfold wait_for_cpus_sum
  refine foldl_lt_mod _ (fun s p => Nat.mod_lt _ UINTPTR_MOD_pos) counts _
    (foldl_lt_mod _ (fun s p => Nat.mod_lt _ UINTPTR_MOD_pos) counts 0 UINTPTR_MOD_pos)

lemma wait_for_cpus_sum_balanced (counts : List rcu_percpu_count)
    (hbal : lock_total counts = unlock_total counts) :
    wait_for_cpus_sum counts = 0 := by
  have h := wait_for_cpus_sum_modeq counts
  rw [hbal, sub_self] at h
  have hlt := wait_for_cpus_sum_lt counts
  have hmod : ((wait_for_cpus_sum counts : Nat) : Int) % (UINTPTR_MOD : Int) = 0 := by
    have h2 := h
    unfold Int.ModEq at h2
    simpa using h2
  have hsmall : ((wait_for_cpus_sum counts : Nat) : Int) % (UINTPTR_MOD : Int) =
      ((wait_for_cpus_sum counts : Nat) : Int) :=
    Int.emod_eq_of_lt (by positivity) (by exact_mod_cast hlt)
  have hz : ((wait_for_cpus_sum counts : Nat) : Int) = 0 := by rw [← hsmall, hmod]
  exact_mod_cast hz

lemma wait_for_cpus_loop_spec (gpctr : Nat) :
    ∀ (snaps : List (List rcu_percpu)) (k : Nat),
      wait_for_cpus_loop gpctr snaps = some k ↔
        (k < snaps.length ∧
          wait_for_cpus_sum (wait_for_cpus_counts gpctr (snaps.getD k [])) = 0 ∧
          ∀ j < k, wait_for_cpus_sum (wait_for_cpus_counts gpctr (snaps.getD j [])) ≠ 0) := by
  intro snaps
  induction snaps with
  | nil =>
    intro k
    simp [wait_for_cpus_loop]
  | cons s rest ih =>
    intro k
    rw [wait_for_cpus_loop]
    by_cases h0 : wait_for_cpus_sum (wait_for_cpus_counts gpctr s) = 0
    · rw [if_pos h0]
      constructor
      · intro h
        have hk : k = 0 := (Option.some.inj h).symm
        subst hk
        exact ⟨by simp, by simpa using h0, fun j hj => absurd hj (Nat.not_lt_zero j)⟩
      · rintro ⟨hlen, hsum, hall⟩
        rcases Nat.eq_zero_or_pos k with hk | hk
        · subst hk; rfl
        · exact absurd h0 (by simpa using hall 0 hk)
    · rw [if_neg h0]
      constructor
      · intro h
        obtain ⟨k2, hk2, hke⟩ := Option.map_eq_some'.mp h
        subst hke
        obtain ⟨hlen, hsum, hall⟩ := (ih k2).mp hk2
        refine ⟨by simpa using Nat.succ_lt_succ hlen, by simpa using hsum, ?_⟩
        intro j hj
        cases j with
        | zero => simpa using h0
        | succ j2 => simpa using hall j2 (by omega)
      · rintro ⟨hlen, hsum, hall⟩
        cases k with
        | zero => exact absurd (by simpa using hsum) h0
        | succ k2 =>
          have hres : wait_for_cpus_loop gpctr rest = some k2 := by
            refine (ih k2).mpr ⟨by simpa using hlen, by simpa using hsum, ?_⟩
            intro j hj
            simpa using hall (j + 1) (by omega)
          rw [hres]
          rfl

/-- **C2.** The drain loop of `wait_for_cpus` terminates a pass exactly at
the first counter snapshot whose `uintptr_t` sum
`(lock[prev] + rseq_lock[prev]) - (unlock[prev] + rseq_unlock[prev])`, summed
over all possible CPUs, is zero; and because the sum is computed modulo
`2^64`, wraparound of the monotonically increasing true counters never
changes the outcome of the zero test when every read-lock event of the phase
has a matching read-unlock event: balanced true counts always produce a zero
modular sum. -/
theorem wait_for_cpus_zero_test :
    (∀ gpctr snaps k,
      wait_for_cpus_loop gpctr snaps = some k ↔
        (k < snaps.length ∧
          wait_for_cpus_sum (wait_for_cpus_counts gpctr (snaps.getD k [])) = 0 ∧
          ∀ j < k,
            wait_for_cpus_sum (wait_for_cpus_counts gpctr (snaps.getD j [])) ≠ 0)) ∧
    (∀ counts : List rcu_percpu_count,
      lock_total counts = unlock_total counts → wait_for_cpus_sum counts = 0) :=
  ⟨fun gpctr snaps k => wait_for_cpus_loop_spec gpctr snaps k,
    fun counts h => wait_for_cpus_sum_balanced counts h⟩

/-- Counter snapshot for the C2 witness: one CPU whose phase-1 counters have
wrapped through `2^64` yet balance: `lock = 2^64` while
`unlock + rseq_unlock = 2^63 + 2^63`. -/
def wrapWitnessCounts : rcu_percpu_count := ⟨2 ^ 64, 2 ^ 63, 0, 2 ^ 63⟩

/-- Witness for C2: at the wrapped-but-balanced snapshot the modular sum is
zero, and the drain loop (gp phase bit 0, so `prev_period = 1`) over that
single snapshot stops at index 0. -/
theorem wait_for_cpus_zero_test_witness :
    wait_for_cpus_sum [wrapWitnessCounts] = 0 ∧
    wait_for_cpus_loop 0 [[⟨⟨7, 0, 0, 0⟩, wrapWitnessCounts⟩]] = some 0 := by
  have hsum : wait_for_cpus_sum [wrapWitnessCounts] = 0 :=
    wait_for_cpus_zero_test.2 [wrapWitnessCounts] (by decide)
  refine ⟨hsum, ?_⟩
  refine (wait_for_cpus_zero_test.1 0 [[⟨⟨7, 0, 0, 0⟩, wrapWitnessCounts⟩]] 0).mpr ?_
  refine ⟨by decide, ?_, fun j hj => absurd hj (Nat.not_lt_zero j)⟩
  simpa [wait_for_cpus_counts, prev_period, RCU_GP_CTR_PHASE_percpu,
    rcu_percpu.count] using hsum

/-! ### Per-CPU flavor reader side (include/urcu/static/urcu-percpu.h)

`_srcu_read_lock` loads `tmp = rcu_gp.ctr` (the phase, 0 or 1), increments
`count[tmp].lock` on the current CPU and returns `tmp`;
`_srcu_read_unlock(period)` increments `count[period].unlock`.  The void
wrappers `_rcu_read_lock`/`_rcu_read_unlock` store the returned period in the
single thread-local scalar `srcu_state` and read it back.  The model
aggregates the per-CPU counters into per-phase totals (the writer only ever
compares their sums over all CPUs). -/

structure PercpuWorld where
  gpctr : Nat
  lockCnt : Nat → Nat
  unlockCnt : Nat → Nat
  srcu_state : Nat

/-- Increment a per-phase total. -/
def bump (f : Nat → Nat) (p : Nat) : Nat → Nat :=
  fun x => if x = p then f p + 1 else f x

inductive PercpuEv
  /-- `_rcu_read_lock()`: `srcu_state = _srcu_read_lock()` -/
  | read_lock
  /-- `_rcu_read_unlock()`: `_srcu_read_unlock(srcu_state)` -/
  | read_unlock
  /-- writer flip: `CMM_STORE_SHARED(rcu_gp.ctr, rcu_gp.ctr ^ RCU_GP_CTR_PHASE)` -/
  | flip

def percpu_step (w : PercpuWorld) : PercpuEv → PercpuWorld
  | .read_lock =>
    { w with lockCnt := bump w.lockCnt w.gpctr, srcu_state := w.gpctr }
  | .read_unlock =>
    { w with unlockCnt := bump w.unlockCnt w.srcu_state }
  | .flip =>
    { w with gpctr := w.gpctr ^^^ RCU_GP_CTR_PHASE_percpu }

def percpu_run (w : PercpuWorld) : List PercpuEv → PercpuWorld
  | [] => w
  | e :: evs => percpu_run (percpu_step w e) evs

def percpuInitWorld : PercpuWorld := ⟨0, fun _ => 0, fun _ => 0, 0⟩

/-- The fully bracketed nested per-CPU trace with a phase flip between the
two locks. -/
def percpuNestedTrace : List PercpuEv :=
  [PercpuEv.read_lock, PercpuEv.flip, PercpuEv.read_lock,
   PercpuEv.read_unlock, PercpuEv.read_unlock]

/-- **C7 counterexample.**  One registered thread runs two nested
`rcu_read_lock` calls with a grace-period phase flip in between, then unlocks
both (depth 2, far below `2^(bits/2) - 1`).  The outer lock incremented
`lock[0]`, but its matching unlock increments `unlock[1]`: the thread-local
`srcu_state` scalar was overwritten by the inner lock, so the unlock does not
decrement the unlock counter of the phase its matching lock incremented
(`unlock[0] = 0 ≠ 1 = lock[0]` and `unlock[1] = 2`). -/
theorem percpu_unlock_phase_mismatch :
    (percpu_run percpuInitWorld percpuNestedTrace).lockCnt 0 = 1 ∧
    (percpu_run percpuInitWorld percpuNestedTrace).lockCnt 1 = 1 ∧
    (percpu_run percpuInitWorld percpuNestedTrace).unlockCnt 0 = 0 ∧
    (percpu_run percpuInitWorld percpuNestedTrace).unlockCnt 1 = 2 ∧
    (percpu_run percpuInitWorld percpuNestedTrace).unlockCnt 0 ≠
      (percpu_run percpuInitWorld percpuNestedTrace).lockCnt 0 := by
  refine ⟨rfl, rfl, rfl, rfl, by decide⟩

/-! ### Per-CPU srcu variants with caller-held periods

`srcu_read_lock()` returns the period it locked; `srcu_read_unlock(period)`
takes it back from the caller.  `WellMatched g st evs` says the events `evs`,
starting at phase `g` with the periods of the outstanding locks on the stack
`st`, are properly bracketed: each unlock passes the period its matching lock
returned, and every outstanding lock is eventually unlocked. -/

inductive SrcuEv
  | lock
  | unlock (period : Nat)
  | flip

structure SrcuWorld where
  gpctr : Nat
  lockCnt : Nat → Nat
  unlockCnt : Nat → Nat

def srcu_step (w : SrcuWorld) : SrcuEv → SrcuWorld
  | .lock => { w with lockCnt := bump w.lockCnt w.gpctr }
  | .unlock p => { w with unlockCnt := bump w.unlockCnt p }
  | .flip => { w with gpctr := w.gpctr ^^^ RCU_GP_CTR_PHASE_percpu }

def srcu_run (w : SrcuWorld) : List SrcuEv → SrcuWorld
  | [] => w
  | e :: evs => srcu_run (srcu_step w e) evs

inductive WellMatched : Nat → List Nat → List SrcuEv → Prop
  | nil (g : Nat) : WellMatched g [] []
  | flip (g : Nat) (st : List Nat) (evs : List SrcuEv) :
      WellMatched (g ^^^ RCU_GP_CTR_PHASE_percpu) st evs →
      WellMatched g st (SrcuEv.flip :: evs)
  | lock (g : Nat) (st : List Nat) (evs : List SrcuEv) :
      WellMatched g (g :: st) evs → WellMatched g st (SrcuEv.lock :: evs)
  | unlock (g p : Nat) (st : List Nat) (evs : List SrcuEv) :
      WellMatched g st evs → WellMatched g (p :: st) (SrcuEv.unlock p :: evs)

lemma srcu_run_flip (g : Nat) (L U : Nat → Nat) (evs : List SrcuEv) :
    srcu_run ⟨g, L, U⟩ (SrcuEv.flip :: evs) =
      srcu_run ⟨g ^^^ RCU_GP_CTR_PHASE_percpu, L, U⟩ evs := rfl

lemma srcu_balance_aux :
    ∀ {g : Nat} {st : List Nat} {evs : List SrcuEv}, WellMatched g st evs →
      ∀ (L U : Nat → Nat) (q : Nat),
        (srcu_run ⟨g, L, U⟩ evs).unlockCnt q + L q =
          (srcu_run ⟨g, L, U⟩ evs).lockCnt q + U q + st.count q := by
  intro g st evs h
  induction h with
  | nil g =>
    intro L U q
    simp only [srcu_run, List.count_nil]
    omega
  | flip g st evs _ ih =>
    intro L U q
    rw [srcu_run_flip]
    exact ih L U q
  | lock g st evs _ ih =>
    intro L U q
    have hrun : srcu_run ⟨g, L, U⟩ (SrcuEv.lock :: evs) =
        srcu_run ⟨g, bump L g, U⟩ evs := rfl
    rw [hrun]
    have hih := ih (bump L g) U q
    have hb : bump L g q = if q = g then L q + 1 else L q := by
      by_cases hq : q = g
      · subst hq; simp [bump]
      · simp [bump, hq]
    have hc : (g :: st).count q = st.count q + (if q = g then 1 else 0) := by
      rw [List.count_cons]
      by_cases hq : q = g
      · simp [hq]
      · simp [hq, Ne.symm hq]
    by_cases hq : q = g
    · rw [hb, hc, if_pos hq, if_pos hq] at hih
      omega
    · rw [hb, hc, if_neg hq, if_neg hq] at hih
      omega
  | unlock g p st evs _ ih =>
    intro L U q
    have hrun : srcu_run ⟨g, L, U⟩ (SrcuEv.unlock p :: evs) =
        srcu_run ⟨g, L, bump U p⟩ evs := rfl
    rw [hrun]
    have hih := ih L (bump U p) q
    have hb : bump U p q = if q = p then U q + 1 else U q := by
      by_cases hq : q = p
      · subst hq; simp [bump]
      · simp [bump, hq]
    have hc : (p :: st).count q = st.count q + (if q = p then 1 else 0) := by
      rw [List.count_cons]
      by_cases hq : q = p
      · simp [hq]
      · simp [hq, Ne.symm hq]
    by_cases hq : q = p
    · rw [hb, if_pos hq] at hih
      rw [hc, if_pos hq]
      omega
    · rw [hb, if_neg hq] at hih
      rw [hc, if_neg hq]
      omega

/-! ### Signal/mb flavor reader nesting (include/urcu/static/urcu.h) -/

def BITS_PER_LONG : Nat := 64
def RCU_GP_COUNT : Nat := 1
/-- `1UL << (sizeof(unsigned long) << 2)`: bit 32 on the 64-bit target. -/
def RCU_GP_CTR_PHASE_sig : Nat := 2 ^ (BITS_PER_LONG / 2)
def RCU_GP_CTR_NEST_MASK : Nat := RCU_GP_CTR_PHASE_sig - 1

/-- `v & RCU_GP_CTR_NEST_MASK`: the mask is one less than the power of two
`RCU_GP_CTR_PHASE_sig`, so the bitwise AND is the remainder. -/
def sig_nest (v : Nat) : Nat := v % RCU_GP_CTR_PHASE_sig

inductive SigEv
  | lock
  | unlock
  | flip

/-- One step of a single signal-flavor reader interleaved with writer phase
flips; `none` when a read-side `urcu_assert` fires.  `_srcu_read_lock`
asserts `(tmp & RCU_GP_CTR_NEST_MASK) != RCU_GP_CTR_NEST_MASK`, then stores
`gp.ctr` at nest level 0 and `tmp + RCU_GP_COUNT` otherwise
(lines 222-253); `_srcu_read_unlock` asserts `tmp & RCU_GP_CTR_NEST_MASK`
and stores `tmp - RCU_GP_COUNT` (lines 268-294); the writer flips
`gp.ctr ^ RCU_GP_CTR_PHASE` (src/urcu.c line 434). -/
def sig_step (ctr gp : Nat) : SigEv → Option (Nat × Nat)
  | .lock =>
    if sig_nest ctr = RCU_GP_CTR_NEST_MASK then none
    else if sig_nest ctr = 0 then some (gp, gp)
    else some (ctr + RCU_GP_COUNT, gp)
  | .unlock =>
    if sig_nest ctr = 0 then none
    else some (ctr - RCU_GP_COUNT, gp)
  | .flip => some (ctr, gp ^^^ RCU_GP_CTR_PHASE_sig)

def sig_run (ctr gp : Nat) : List SigEv → Option (Nat × Nat)
  | [] => some (ctr, gp)
  | e :: evs =>
    match sig_step ctr gp e with
    | none => none
    | some (c2, g2) => sig_run c2 g2 evs

/-- Well-nested single-reader traces: `SigOk d e evs` holds when, starting at
nesting depth `d`, the locks of `evs` stay strictly below
`RCU_GP_CTR_NEST_MASK` before each lock (the claimed bound
`2^(bits/2) - 1` on the nesting level), unlocks only occur at positive
depth, and the trace ends at depth `e`. -/
inductive SigOk : Nat → Nat → List SigEv → Prop
  | nil (d : Nat) : SigOk d d []
  | flip (d e : Nat) (evs : List SigEv) : SigOk d e evs → SigOk d e (SigEv.flip :: evs)
  | lock (d e : Nat) (evs : List SigEv) : d < RCU_GP_CTR_NEST_MASK →
      SigOk (d + 1) e evs → SigOk d e (SigEv.lock :: evs)
  | unlock (d e : Nat) (evs : List SigEv) : 0 < d →
      SigOk (d - 1) e evs → SigOk d e (SigEv.unlock :: evs)

lemma sig_nest_form (ph d : Nat) (hd : d < RCU_GP_CTR_PHASE_sig) :
    sig_nest (ph * RCU_GP_CTR_PHASE_sig + d) = d := by
  unfold sig_nest
  rw [Nat.add_comm, Nat.add_mul_mod_self_right]
  exact Nat.mod_eq_of_lt hd

lemma sig_gp_flip (gph : Nat) (hg : gph ≤ 1) :
    (gph * RCU_GP_CTR_PHASE_sig + RCU_GP_COUNT) ^^^ RCU_GP_CTR_PHASE_sig =
      (1 - gph) * RCU_GP_CTR_PHASE_sig + RCU_GP_COUNT := by
  interval_cases gph
  · decide
  · decide

lemma nest_mask_lt_phase : RCU_GP_CTR_NEST_MASK < RCU_GP_CTR_PHASE_sig := by
  decide

lemma sig_run_ok :
    ∀ {d e : Nat} {evs : List SigEv}, SigOk d e evs →
      ∀ ph gph, ph ≤ 1 → gph ≤ 1 → d ≤ RCU_GP_CTR_NEST_MASK →
        ∃ ph2 gph2, ph2 ≤ 1 ∧ gph2 ≤ 1 ∧
          sig_run (ph * RCU_GP_CTR_PHASE_sig + d)
              (gph * RCU_GP_CTR_PHASE_sig + RCU_GP_COUNT) evs =
            some (ph2 * RCU_GP_CTR_PHASE_sig + e,
              gph2 * RCU_GP_CTR_PHASE_sig + RCU_GP_COUNT) := by
  intro d e evs h
  induction h with
  | nil d =>
    intro ph gph hp hg _
    exact ⟨ph, gph, hp, hg, rfl⟩
  | flip d e evs _ ih =>
    intro ph gph hp hg hd
    obtain ⟨ph2, gph2, hp2, hg2, hrun⟩ := ih ph (1 - gph) hp (by omega) hd
    refine ⟨ph2, gph2, hp2, hg2, ?_⟩
    have hstep : sig_run (ph * RCU_GP_CTR_PHASE_sig + d)
        (gph * RCU_GP_CTR_PHASE_sig + RCU_GP_COUNT) (SigEv.flip :: evs) =
        sig_run (ph * RCU_GP_CTR_PHASE_sig + d)
          ((gph * RCU_GP_CTR_PHASE_sig + RCU_GP_COUNT) ^^^ RCU_GP_CTR_PHASE_sig) evs := rfl
    rw [hstep, sig_gp_flip gph hg]
    exact hrun
  | lock d e evs hlt _ ih =>
    intro ph gph hp hg hd
    have hdp : d < RCU_GP_CTR_PHASE_sig := lt_trans hlt nest_mask_lt_phase
    have hnest := sig_nest_form ph d hdp
    rcases Nat.eq_zero_or_pos d with hd0 | hdpos
    · subst hd0
      obtain ⟨ph2, gph2, hp2, hg2, hrun⟩ := ih gph gph hg hg (by omega)
      refine ⟨ph2, gph2, hp2, hg2, ?_⟩
      have hstep : sig_run (ph * RCU_GP_CTR_PHASE_sig + 0)
          (gph * RCU_GP_CTR_PHASE_sig + RCU_GP_COUNT) (SigEv.lock :: evs) =
          sig_run (gph * RCU_GP_CTR_PHASE_sig + RCU_GP_COUNT)
            (gph * RCU_GP_CTR_PHASE_sig + RCU_GP_COUNT) evs := by
        show (match sig_step (ph * RCU_GP_CTR_PHASE_sig + 0)
            (gph * RCU_GP_CTR_PHASE_sig + RCU_GP_COUNT) SigEv.lock with
          | none => none
          | some (c2, g2) => sig_run c2 g2 evs) = _
        rw [sig_step]
        rw [hnest]
        rw [if_neg (by decide : ¬ ((0 : Nat) = RCU_GP_CTR_NEST_MASK))]
        rw [if_pos rfl]
      rw [hstep]
      have hform : gph * RCU_GP_CTR_PHASE_sig + RCU_GP_COUNT =
          gph * RCU_GP_CTR_PHASE_sig + (0 + 1) := by
        unfold RCU_GP_COUNT
        omega
      rw [hform] at hrun ⊢
      exact hrun
    · obtain ⟨ph2, gph2, hp2, hg2, hrun⟩ := ih ph gph hp hg (by omega)
      refine ⟨ph2, gph2, hp2, hg2, ?_⟩
      have hstep : sig_run (ph * RCU_GP_CTR_PHASE_sig + d)
          (gph * RCU_GP_CTR_PHASE_sig + RCU_GP_COUNT) (SigEv.lock :: evs) =
          sig_run (ph * RCU_GP_CTR_PHASE_sig + d + RCU_GP_COUNT)
            (gph * RCU_GP_CTR_PHASE_sig + RCU_GP_COUNT) evs := by
        show (match sig_step (ph * RCU_GP_CTR_PHASE_sig + d)
            (gph * RCU_GP_CTR_PHASE_sig + RCU_GP_COUNT) SigEv.lock with
          | none => none
          | some (c2, g2) => sig_run c2 g2 evs) = _
        rw [sig_step]
        rw [hnest]
        rw [if_neg (by omega : ¬ (d = RCU_GP_CTR_NEST_MASK))]
        rw [if_neg (by omega : ¬ (d = 0))]
      rw [hstep]
      have hform : ph * RCU_GP_CTR_PHASE_sig + d + RCU_GP_COUNT =
          ph * RCU_GP_CTR_PHASE_sig + (d + 1) := by
        unfold RCU_GP_COUNT
        omega
      rw [hform]
      exact hrun
  | unlock d e evs hdpos _ ih =>
    intro ph gph hp hg hd
    have hdp : d < RCU_GP_CTR_PHASE_sig :=
      lt_of_le_of_lt hd nest_mask_lt_phase
    have hnest := sig_nest_form ph d hdp
    obtain ⟨ph2, gph2, hp2, hg2, hrun⟩ := ih ph gph hp hg (by omega)
    refine ⟨ph2, gph2, hp2, hg2, ?_⟩
    have hstep : sig_run (ph * RCU_GP_CTR_PHASE_sig + d)
        (gph * RCU_GP_CTR_PHASE_sig + RCU_GP_COUNT) (SigEv.unlock :: evs) =
        sig_run (ph * RCU_GP_CTR_PHASE_sig + d - RCU_GP_COUNT)
          (gph * RCU_GP_CTR_PHASE_sig + RCU_GP_COUNT) evs := by
      show (match sig_step (ph * RCU_GP_CTR_PHASE_sig + d)
          (gph * RCU_GP_CTR_PHASE_sig + RCU_GP_COUNT) SigEv.unlock with
        | none => none
        | some (c2, g2) => sig_run c2 g2 evs) = _
      rw [sig_step]
      rw [hnest]
      rw [if_neg (by omega : ¬ (d = 0))]
    rw [hstep]
    have hform : ph * RCU_GP_CTR_PHASE_sig + d - RCU_GP_COUNT =
        ph * RCU_GP_CTR_PHASE_sig + (d - 1) := by
      unfold RCU_GP_COUNT
      omega
    rw [hform]
    exact hrun

/-- **C7 (amended).**  Signal/mb flavor: for every well-nested trace of one
registered reader interleaved with writer phase flips, with nesting kept
within `2^(bits/2) - 1` levels, no read-side `urcu_assert` ever fires (the
nesting field never reaches `RCU_GP_CTR_NEST_MASK` at a lock) and the
reader's counter ends with its nesting field equal to the trace's final
depth — every unlock undoes the `RCU_GP_COUNT` added by its matching lock.
Per-CPU flavor: for every trace of the srcu variants in which each unlock
passes the period returned by its matching lock, the per-phase unlock totals
equal the per-phase lock totals once all locks are unlocked; the phase used
at unlock is the one saved when its matching lock ran, not necessarily the
current one (with the void `rcu_read_lock`/`rcu_read_unlock` wrappers the
single `srcu_state` scalar holds only the most recent lock's phase — see the
counterexample). -/
theorem read_nesting_balance :
    (∀ d e evs, SigOk d e evs →
      ∀ ph gph, ph ≤ 1 → gph ≤ 1 → d ≤ RCU_GP_CTR_NEST_MASK →
        ∃ ph2 gph2, ph2 ≤ 1 ∧ gph2 ≤ 1 ∧
          sig_run (ph * RCU_GP_CTR_PHASE_sig + d)
              (gph * RCU_GP_CTR_PHASE_sig + RCU_GP_COUNT) evs =
            some (ph2 * RCU_GP_CTR_PHASE_sig + e,
              gph2 * RCU_GP_CTR_PHASE_sig + RCU_GP_COUNT)) ∧
    (∀ g evs, WellMatched g [] evs → ∀ q,
      (srcu_run ⟨g, fun _ => 0, fun _ => 0⟩ evs).unlockCnt q =
        (srcu_run ⟨g, fun _ => 0, fun _ => 0⟩ evs).lockCnt q) := by
  constructor
  · intro d e evs h ph gph hp hg hd
    exact sig_run_ok h ph gph hp hg hd
  · intro g evs h q
    have := srcu_balance_aux h (fun _ => 0) (fun _ => 0) q
    simpa using this

/-- Well-nested signal trace for the C7 witness: lock, lock, unlock, flip,
unlock, starting and ending at depth 0. -/
def sigWitnessTrace : List SigEv :=
  [SigEv.lock, SigEv.lock, SigEv.unlock, SigEv.flip, SigEv.unlock]

lemma sigWitnessTrace_ok : SigOk 0 0 sigWitnessTrace := by
  refine SigOk.lock 0 0 _ (by decide) ?_
  refine SigOk.lock 1 0 _ (by decide) ?_
  refine SigOk.unlock 2 0 _ (by decide) ?_
  refine SigOk.flip 1 0 _ ?_
  refine SigOk.unlock 1 0 _ (by decide) ?_
  exact SigOk.nil 0

/-- Matched srcu trace for the C7 witness: lock at phase 0, flip, lock at
phase 1, unlock(1), unlock(0). -/
def srcuWitnessTrace : List SrcuEv :=
  [SrcuEv.lock, SrcuEv.flip, SrcuEv.lock, SrcuEv.unlock 1, SrcuEv.unlock 0]

lemma srcuWitnessTrace_matched : WellMatched 0 [] srcuWitnessTrace := by
  refine WellMatched.lock 0 [] _ ?_
  refine WellMatched.flip 0 [0] _ ?_
  refine WellMatched.lock 1 [0] _ ?_
  refine WellMatched.unlock 1 1 [0] _ ?_
  refine WellMatched.unlock 1 0 [] _ ?_
  exact WellMatched.nil 1

/-- Witness for C7 (amended) at the two concrete traces: the signal reader
runs to completion (no assert) ending at nest 0, and the matched srcu trace
balances both phases. -/
theorem read_nesting_balance_witness :
    (sig_run (0 * RCU_GP_CTR_PHASE_sig + 0)
        (0 * RCU_GP_CTR_PHASE_sig + RCU_GP_COUNT) sigWitnessTrace).isSome = true ∧
    (srcu_run ⟨0, fun _ => 0, fun _ => 0⟩ srcuWitnessTrace).unlockCnt 0 =
      (srcu_run ⟨0, fun _ => 0, fun _ => 0⟩ srcuWitnessTrace).lockCnt 0 ∧
    (srcu_run ⟨0, fun _ => 0, fun _ => 0⟩ srcuWitnessTrace).unlockCnt 1 =
      (srcu_run ⟨0, fun _ => 0, fun _ => 0⟩ srcuWitnessTrace).lockCnt 1 := by
  refine ⟨?_, ?_, ?_⟩
  · obtain ⟨ph2, gph2, _, _, hrun⟩ :=
      read_nesting_balance.1 0 0 sigWitnessTrace sigWitnessTrace_ok 0 0
        (by decide) (by decide) (by decide)
    rw [hrun]
    rfl
  · exact read_nesting_balance.2 0 srcuWitnessTrace srcuWitnessTrace_matched 0
  · exact read_nesting_balance.2 0 srcuWitnessTrace srcuWitnessTrace_matched 1

/-! ### read_ongoing across the flavors -/

/-- `_srcu_read_ongoing` of the QSBR flavor
(include/urcu/static/urcu-qsbr.h lines 174-178): `return tls->ctr;`. -/
def srcu_read_ongoing_qsbr (ctr : Nat) : Nat := ctr

/-- `_srcu_read_ongoing` of the signal/mb flavor
(include/urcu/static/urcu.h lines 308-311):
`return tls->ctr & RCU_GP_CTR_NEST_MASK;`. -/
def srcu_read_ongoing_sig (ctr : Nat) : Nat := sig_nest ctr

/-- `_rcu_read_ongoing` of the per-CPU flavor
(include/urcu/static/urcu-percpu.h lines 276-279): `return 0;  //XXX TODO`. -/
def rcu_read_ongoing_percpu (_w : PercpuWorld) : Nat := 0

/-- **C6 (code bug).**  After `rcu_read_lock` the per-CPU reader is inside a
read-side critical section (its phase-0 lock count exceeds the unlock
count), yet `_rcu_read_ongoing` returns 0: the function is the stub
`return 0; //XXX TODO`.  The QSBR flavor (returns `tls->ctr`, nonzero
exactly when online) and the signal/mb flavor (returns
`tls->ctr & RCU_GP_CTR_NEST_MASK`, nonzero exactly at positive nesting)
behave as the claim states. -/
theorem rcu_read_ongoing_percpu_stub :
    (percpu_run percpuInitWorld [PercpuEv.read_lock]).lockCnt 0 = 1 ∧
    (percpu_run percpuInitWorld [PercpuEv.read_lock]).unlockCnt 0 = 0 ∧
    rcu_read_ongoing_percpu (percpu_run percpuInitWorld [PercpuEv.read_lock]) = 0 ∧
    srcu_read_ongoing_qsbr 0 = 0 ∧
    srcu_read_ongoing_qsbr 3 ≠ 0 ∧
    (∀ ctr, srcu_read_ongoing_sig ctr ≠ 0 ↔ sig_nest ctr ≠ 0) ∧
    srcu_read_ongoing_sig (RCU_GP_CTR_PHASE_sig + 1) = 1 ∧
    srcu_read_ongoing_sig RCU_GP_CTR_PHASE_sig = 0 := by
  refine ⟨rfl, rfl, rfl, rfl, by decide, fun ctr => Iff.rfl, by decide, by decide⟩

/-! ### QSBR flavor (src/urcu-qsbr.c, include/urcu/static/urcu-qsbr.h) -/

def RCU_GP_ONLINE : Nat := 1
def RCU_GP_CTR_qsbr : Nat := 2

inductive rcu_state
  | RCU_READER_ACTIVE_CURRENT
  | RCU_READER_ACTIVE_OLD
  | RCU_READER_INACTIVE
deriving Repr, DecidableEq

/-- `rcu_reader_state` (include/urcu/static/urcu-qsbr.h lines 118-129):
`ctr == 0` is INACTIVE, `ctr == gp->ctr` is ACTIVE_CURRENT, anything else is
ACTIVE_OLD. -/
def rcu_reader_state (gpctr v : Nat) : rcu_state :=
  if v = 0 then rcu_state.RCU_READER_INACTIVE
  else if v = gpctr then rcu_state.RCU_READER_ACTIVE_CURRENT
  else rcu_state.RCU_READER_ACTIVE_OLD

/-- One pass of the reader-movement switch of `wait_for_readers`
(src/urcu-qsbr.c lines 186-207) on the snapshot `input` of the input
readers' `ctr` values: ACTIVE_CURRENT moves to `cur_snap_readers` when that
list was supplied (`useSnap`), falling through to `qsreaders` otherwise;
INACTIVE moves to `qsreaders`; ACTIVE_OLD stays in the input list.
Returns (readers left in input, moved to cur_snap, moved to qsreaders). -/
def wait_for_readers_pass (gpctr : Nat) (useSnap : Bool) :
    List Nat → List Nat × List Nat × List Nat
  | [] => ([], [], [])
  | v :: rest =>
    let r := wait_for_readers_pass gpctr useSnap rest
    match rcu_reader_state gpctr v with
    | rcu_state.RCU_READER_ACTIVE_CURRENT =>
      if useSnap then (r.1, v :: r.2.1, r.2.2) else (r.1, r.2.1, v :: r.2.2)
    | rcu_state.RCU_READER_INACTIVE => (r.1, r.2.1, v :: r.2.2)
    | rcu_state.RCU_READER_ACTIVE_OLD => (v :: r.1, r.2.1, r.2.2)

/-- The `for (;;)` loop of `wait_for_readers` (lines 170-231): run a pass;
`if (cds_list_empty(input_readers)) break;` returns once the input list has
emptied, otherwise the writer waits (releasing the registry lock) and
retries.  `upds` supplies, per retry, the new `ctr` of each remaining reader
(readers may pass quiescent states concurrently); `none` when the modelled
schedule runs out before the input empties. -/
def wait_for_readers_loop (gpctr : Nat) (useSnap : Bool) :
    List (Nat → Nat) → List Nat → List Nat → List Nat →
      Option (List Nat × List Nat)
  | [], input, snap, qs =>
    if (wait_for_readers_pass gpctr useSnap input).1 = [] then
      some ((wait_for_readers_pass gpctr useSnap input).2.1 ++ snap,
        (wait_for_readers_pass gpctr useSnap input).2.2 ++ qs)
    else none
  | u :: rest, input, snap, qs =>
    if (wait_for_readers_pass gpctr useSnap input).1 = [] then
      some ((wait_for_readers_pass gpctr useSnap input).2.1 ++ snap,
        (wait_for_readers_pass gpctr useSnap input).2.2 ++ qs)
    else
      wait_for_readers_loop gpctr useSnap rest
        ((wait_for_readers_pass gpctr useSnap input).1.map u)
        ((wait_for_readers_pass gpctr useSnap input).2.1 ++ snap)
        ((wait_for_readers_pass gpctr useSnap input).2.2 ++ qs)

/-- **C5 counterexample.**  When a `cur_snap_readers` list is supplied (as in
the first grace-period phase of the two-subphase `synchronize_srcu`), a
reader in state ACTIVE_CURRENT is moved to the cur_snap list and not to the
quiescent list: with `gp.ctr = 3` and one reader with `ctr = 3`, the pass
leaves `qsreaders` empty and puts the reader into `cur_snap_readers`,
contrary to the claim that every INACTIVE or ACTIVE_CURRENT reader moves to
the quiescent list. -/
theorem wait_for_readers_current_to_snap :
    rcu_reader_state 3 3 = rcu_state.RCU_READER_ACTIVE_CURRENT ∧
    wait_for_readers_pass 3 true [3] = ([], [3], []) ∧
    (wait_for_readers_pass 3 true [3]).2.2 = [] := by
  refine ⟨by decide, by decide, by decide⟩

lemma wait_for_readers_pass_eq (gpctr : Nat) (useSnap : Bool) :
    ∀ input : List Nat,
      wait_for_readers_pass gpctr useSnap input =
        (input.filter
            (fun v => rcu_reader_state gpctr v = rcu_state.RCU_READER_ACTIVE_OLD),
         if useSnap then
           input.filter
             (fun v => rcu_reader_state gpctr v = rcu_state.RCU_READER_ACTIVE_CURRENT)
         else [],
         if useSnap then
           input.filter
             (fun v => rcu_reader_state gpctr v = rcu_state.RCU_READER_INACTIVE)
         else
           input.filter
             (fun v => rcu_reader_state gpctr v = rcu_state.RCU_READER_INACTIVE ∨
               rcu_reader_state gpctr v = rcu_state.RCU_READER_ACTIVE_CURRENT)) := by
  intro input
  induction input with
  | nil => cases useSnap <;> simp [wait_for_readers_pass]
  | cons v rest ih =>
    rw [wait_for_readers_pass, ih]
    cases hst : rcu_reader_state gpctr v <;> cases useSnap <;>
      simp [List.filter_cons, hst]

/-- **C5 (amended).**  The reader-state classification is as claimed whenever
`gp.ctr` is nonzero (it always is: the counter starts at `RCU_GP_ONLINE` and
changes by `RCU_GP_CTR` flips or increments, staying odd).  Each pass of
`wait_for_readers` moves every INACTIVE reader to the quiescent list, moves
every ACTIVE_CURRENT reader to the `cur_snap_readers` list when one is
supplied and to the quiescent list otherwise, and leaves every ACTIVE_OLD
reader in the input list.  The loop returns as soon as a pass leaves the
input empty, continues into the next round while ACTIVE_OLD readers remain,
and is still waiting when the modelled schedule ends with a non-empty
input. -/
theorem wait_for_readers_moves :
    (∀ gpctr v, gpctr ≠ 0 →
      ((rcu_reader_state gpctr v = rcu_state.RCU_READER_INACTIVE ↔ v = 0) ∧
       (rcu_reader_state gpctr v = rcu_state.RCU_READER_ACTIVE_CURRENT ↔ v = gpctr) ∧
       (rcu_reader_state gpctr v = rcu_state.RCU_READER_ACTIVE_OLD ↔
         (v ≠ 0 ∧ v ≠ gpctr)))) ∧
    (∀ gpctr useSnap input,
      wait_for_readers_pass gpctr useSnap input =
        (input.filter
            (fun v => rcu_reader_state gpctr v = rcu_state.RCU_READER_ACTIVE_OLD),
         if useSnap then
           input.filter
             (fun v => rcu_reader_state gpctr v = rcu_state.RCU_READER_ACTIVE_CURRENT)
         else [],
         if useSnap then
           input.filter
             (fun v => rcu_reader_state gpctr v = rcu_state.RCU_READER_INACTIVE)
         else
           input.filter
             (fun v => rcu_reader_state gpctr v = rcu_state.RCU_READER_INACTIVE ∨
               rcu_reader_state gpctr v = rcu_state.RCU_READER_ACTIVE_CURRENT))) ∧
    (∀ gpctr useSnap upds input snap qs,
      (wait_for_readers_pass gpctr useSnap input).1 = [] →
        wait_for_readers_loop gpctr useSnap upds input snap qs =
          some ((wait_for_readers_pass gpctr useSnap input).2.1 ++ snap,
            (wait_for_readers_pass gpctr useSnap input).2.2 ++ qs)) ∧
    (∀ gpctr useSnap u rest input snap qs,
      (wait_for_readers_pass gpctr useSnap input).1 ≠ [] →
        wait_for_readers_loop gpctr useSnap (u :: rest) input snap qs =
          wait_for_readers_loop gpctr useSnap rest
            ((wait_for_readers_pass gpctr useSnap input).1.map u)
            ((wait_for_readers_pass gpctr useSnap input).2.1 ++ snap)
            ((wait_for_readers_pass gpctr useSnap input).2.2 ++ qs)) ∧
    (∀ gpctr useSnap input snap qs,
      (wait_for_readers_pass gpctr useSnap input).1 ≠ [] →
        wait_for_readers_loop gpctr useSnap [] input snap qs = none) := by
  refine ⟨?_, ?_, ?_, ?_, ?_⟩
  · intro gpctr v hg
    unfold rcu_reader_state
    by_cases h0 : v = 0
    · subst h0
      simp only [if_pos rfl]
      refine ⟨by simp, ?_, ?_⟩
      · constructor
        · intro hc
          cases hc
        · intro hc
          exact absurd hc.symm hg
      · constructor
        · intro hc
          cases hc
        · intro hc
          exact absurd rfl hc.1
    · rw [if_neg h0]
      by_cases hc : v = gpctr
      · rw [if_pos hc]
        exact ⟨⟨fun h => (nomatch h), fun h => absurd h h0⟩,
          ⟨fun _ => hc, fun _ => rfl⟩,
          ⟨fun h => (nomatch h), fun h => absurd hc h.2⟩⟩
      · rw [if_neg hc]
        exact ⟨⟨fun h => (nomatch h), fun h => absurd h h0⟩,
          ⟨fun h => (nomatch h), fun h => absurd h hc⟩,
          ⟨fun _ => ⟨h0, hc⟩, fun _ => rfl⟩⟩
  · intro gpctr useSnap input
    exact wait_for_readers_pass_eq gpctr useSnap input
  · intro gpctr useSnap upds input snap qs hemp
    cases upds with
    | nil => rw [wait_for_readers_loop, if_pos hemp]
    | cons u rest => rw [wait_for_readers_loop, if_pos hemp]
  · intro gpctr useSnap u rest input snap qs hne
    rw [wait_for_readers_loop, if_neg hne]
  · intro gpctr useSnap input snap qs hne
    rw [wait_for_readers_loop, if_neg hne]

/-- Witness for C5 (amended) at `gp.ctr = 3` and readers `[0, 3, 5]`: the
pass with a supplied cur_snap list keeps the OLD reader 5, snapshots the
CURRENT reader 3, quiesces the INACTIVE reader 0; the loop then finishes in
the next round once reader 5 reports `ctr = 3`, and reports `none` when no
round remains. -/
theorem wait_for_readers_moves_witness :
    (rcu_reader_state 3 5 = rcu_state.RCU_READER_ACTIVE_OLD ↔ (5 ≠ 0 ∧ 5 ≠ 3)) ∧
    wait_for_readers_pass 3 true [0, 3, 5] = ([5], [3], [0]) ∧
    wait_for_readers_loop 3 true [fun _ => 3] [0, 3, 5] [] [] =
      some ([3, 3], [0]) ∧
    wait_for_readers_loop 3 true [] [0, 3, 5] [] [] = none := by
  refine ⟨((wait_for_readers_moves.1 3 5 (by decide)).2.2), ?_, ?_, ?_⟩
  · rw [wait_for_readers_moves.2.1 3 true [0, 3, 5]]
    decide
  · rw [wait_for_readers_moves.2.2.2.1 3 true (fun _ => 3) [] [0, 3, 5] [] []
      (by decide)]
    rw [wait_for_readers_moves.2.2.1 3 true []
      ((wait_for_readers_pass 3 true [0, 3, 5]).1.map (fun _ => 3))
      ((wait_for_readers_pass 3 true [0, 3, 5]).2.1 ++ [])
      ((wait_for_readers_pass 3 true [0, 3, 5]).2.2 ++ []) (by decide)]
    decide
  · exact wait_for_readers_moves.2.2.2.2 3 true [0, 3, 5] [] [] (by decide)

/-! ### synchronize_srcu early exit on an empty registry (src/urcu-qsbr.c) -/

structure QsbrDomain where
  gpctr : Nat
  registry : List Nat
deriving Repr, DecidableEq

/-- Leader path of `synchronize_srcu`, `CAA_BITS_PER_LONG < 64` version
(src/urcu-qsbr.c lines 240-357), as run while holding `gp_lock` and
`registry_lock`: `if (cds_list_empty(&urcu_domain->registry)) goto out;`
skips both `wait_for_readers` calls and the parity flip; otherwise the
counter is flipped (`gp.ctr ^ RCU_GP_CTR`) between two wait calls.  Returns
the final domain and the number of `wait_for_readers` calls performed. -/
def synchronize_srcu_lt64 (d : QsbrDomain) : QsbrDomain × Nat :=
  if d.registry = [] then (d, 0)
  else ({ d with gpctr := d.gpctr ^^^ RCU_GP_CTR_qsbr }, 2)

/-- Leader path of `synchronize_srcu`, 64-bit version (src/urcu-qsbr.c lines
359-444): empty-registry early exit before the counter update, otherwise
`gp.ctr + RCU_GP_CTR` followed by one `wait_for_readers` call. -/
def synchronize_srcu_ge64 (d : QsbrDomain) : QsbrDomain × Nat :=
  if d.registry = [] then (d, 0)
  else ({ d with gpctr := d.gpctr + RCU_GP_CTR_qsbr }, 1)

/-- **C10.**  With an empty reader registry at the point where the leader
holds both the grace-period lock and the registry lock, `synchronize_srcu`
returns without touching `gp.ctr` (no parity flip, no increment) and without
a single wait pass, in both the two-subphase and the 64-bit variants; the
counter changes only when at least one reader is registered. -/
theorem synchronize_srcu_empty_registry (d : QsbrDomain) :
    (d.registry = [] →
      synchronize_srcu_lt64 d = (d, 0) ∧ synchronize_srcu_ge64 d = (d, 0)) ∧
    ((synchronize_srcu_lt64 d).1.gpctr ≠ d.gpctr → d.registry ≠ []) ∧
    ((synchronize_srcu_ge64 d).1.gpctr ≠ d.gpctr → d.registry ≠ []) ∧
    (d.registry ≠ [] →
      (synchronize_srcu_lt64 d).1.gpctr = d.gpctr ^^^ RCU_GP_CTR_qsbr ∧
      (synchronize_srcu_lt64 d).2 = 2 ∧
      (synchronize_srcu_ge64 d).1.gpctr = d.gpctr + RCU_GP_CTR_qsbr ∧
      (synchronize_srcu_ge64 d).2 = 1) := by
  by_cases hreg : d.registry = []
  · refine ⟨fun _ => ?_, ?_, ?_, fun hne => absurd hreg hne⟩
    · unfold synchronize_srcu_lt64 synchronize_srcu_ge64
      rw [if_pos hreg, if_pos hreg]
      exact ⟨rfl, rfl⟩
    · intro hne
      exfalso
      apply hne
      unfold synchronize_srcu_lt64
      rw [if_pos hreg]
    · intro hne
      exfalso
      apply hne
      unfold synchronize_srcu_ge64
      rw [if_pos hreg]
  · refine ⟨fun hc => absurd hc hreg, fun _ => hreg, fun _ => hreg, fun _ => ?_⟩
    unfold synchronize_srcu_lt64 synchronize_srcu_ge64
    rw [if_neg hreg, if_neg hreg]
    exact ⟨rfl, rfl, rfl, rfl⟩

/-- Witness for C10: an empty-registry domain is returned unchanged with zero
wait passes; a domain with one registered reader gets its counter flipped
(resp. incremented). -/
theorem synchronize_srcu_empty_registry_witness :
    synchronize_srcu_lt64 ⟨1, []⟩ = (⟨1, []⟩, 0) ∧
    synchronize_srcu_ge64 ⟨1, []⟩ = (⟨1, []⟩, 0) ∧
    (synchronize_srcu_lt64 ⟨1, [3]⟩).1.gpctr = 1 ^^^ RCU_GP_CTR_qsbr ∧
    (synchronize_srcu_ge64 ⟨1, [3]⟩).1.gpctr = 1 + RCU_GP_CTR_qsbr := by
  have h1 := (synchronize_srcu_empty_registry ⟨1, []⟩).1 rfl
  have h2 := (synchronize_srcu_empty_registry ⟨1, [3]⟩).2.2.2 (by decide)
  exact ⟨h1.1, h1.2, h2.1, h2.2.2.1⟩

end Urcu
